import Mathlib

/-!
Verification of the row-to-value decoding engine of CrabyBase
(`crates/crabybase-db/src/sqlite.rs`): the per-column type dispatch
(`parse_column` and the five scalar decoders), the row-to-object assembly
(`parse_row`), and the two result-set entry points (`parse_rows` typed and
`parse_rows_dynamic`).

Modelling choices:
- A SQLite cell (`rusqlite::types::ValueRef`) is one of Null / Integer (i64) /
  Real (f64) / Text / Blob.  An `f64` payload is carried as a bit pattern plus
  a finiteness flag (`F64`): no claim here depends on floating-point
  arithmetic, but the value-tree kind a REAL cell decodes to does depend on
  whether the float is finite, because `serde_json` converts a non-finite
  `f64` to `Value::Null` (`Number::from_f64` returns `None` for NaN and the
  infinities, and `From<f64> for Value` maps that to `Value::Null`), and
  SQLite stores and returns infinities in a REAL column (e.g. the literal
  `9e999`).  `jsonOfF64` models this conversion.
- `serde_json::Value` is embedded as `Value` below.  `serde_json`'s `Number`
  is split into its integer and floating cases.  There is no byte-sequence
  constructor, exactly as in `serde_json`.
- `row.get::<T>(i)` follows rusqlite's `FromSql` impls: `String` accepts only
  Text cells, `i64` only Integer cells, `f64` accepts Integer (cast) and Real
  cells, `Vec<u8>` only Blob cells; anything else is an invalid-type error,
  an out-of-range index an invalid-index error.
- `serde_json::from_str` (the JSON text parser) and
  `serde_json::from_value::<T>` (the typed deserializer) are external-library
  collaborators; they are passed as explicit function parameters `jparse`
  and `deser`.
- The `panic!` on an unrecognized declared type in `parse_column` is modelled
  as the distinguished error `DbError.panicUnknownType`, keeping the failure
  observable and distinguishable from ordinary `Result` errors.
- `serde_json::Map::insert` replaces the value stored under an existing key
  and otherwise adds a new entry; `mapInsert` below does the same on an
  association list.  All properties proved about assembled rows (lookup,
  entry count, key set) are insensitive to entry order, so they hold for
  both of `serde_json::Map`'s backing maps (BTreeMap / IndexMap).
-/

namespace CrabyBase

/-- Stand-in for an `f64`: an inert bit pattern plus the one fact about the
float the decoding engine's output depends on, whether it is finite.  The
engine never computes with the float; it only moves it from the cell into
the value tree, where `serde_json` turns a non-finite `f64` into a null
leaf. -/
structure F64 where
  bits : Nat
  isFinite : Bool
deriving DecidableEq, Repr

/-- `rusqlite::Column`: a column's name and declared type (`decl_type`),
which may be absent. -/
structure SqlColumn where
  name : String
  declType : Option String
deriving DecidableEq, Repr

/-- A raw SQLite cell value (`rusqlite::types::ValueRef`). A blob is a byte
sequence, each byte in `0..=255`. -/
inductive SqlCell where
  | Null : SqlCell
  | Integer : Int → SqlCell
  | Real : F64 → SqlCell
  | Text : String → SqlCell
  | Blob : List (Fin 256) → SqlCell
deriving DecidableEq, Repr

/-- `serde_json::Value`, with `Number` split into its integer and floating
cases.  Note there is no byte-sequence constructor: `serde_json` has none. -/
inductive Value where
  | null : Value
  | bool : Bool → Value
  | intNum : Int → Value
  | realNum : F64 → Value
  | str : String → Value
  | arr : List Value → Value
  | obj : List (String × Value) → Value

/-- Errors the decoding engine can surface.  The first three model
`rusqlite` / `serde_json` `Result` errors travelling through `?`; the last
models the `panic!` on an unrecognized declared column type. -/
inductive DbError where
  | invalidColumnIndex : DbError
  | invalidColumnType : DbError
  | jsonParseError : DbError
  | deserializeError : DbError
  | panicUnknownType : String → DbError
deriving DecidableEq, Repr

/-- `row.get::<String>(i)`: rusqlite's `FromSql for String` accepts only a
Text cell. -/
def rowGetText (row : List SqlCell) (i : Nat) : Except DbError String :=
  match row.get? i with
  | none => .error .invalidColumnIndex
  | some (SqlCell.Text s) => .ok s
  | some _ => .error .invalidColumnType

/-- `row.get::<i64>(i)`: rusqlite's `FromSql for i64` accepts only an
Integer cell. -/
def rowGetInteger (row : List SqlCell) (i : Nat) : Except DbError Int :=
  match row.get? i with
  | none => .error .invalidColumnIndex
  | some (SqlCell.Integer n) => .ok n
  | some _ => .error .invalidColumnType

/-- The `i as f64` cast rusqlite performs when an `f64` is requested from an
Integer cell.  The cast of an `i64` is always finite; the bit pattern is
inert, so any injection serves. -/
def f64OfInt (i : Int) : F64 := ⟨i.toNat, true⟩

/-- `row.get::<f64>(i)`: rusqlite's `FromSql for f64` accepts a Real cell,
and an Integer cell via an `as f64` cast. -/
def rowGetReal (row : List SqlCell) (i : Nat) : Except DbError F64 :=
  match row.get? i with
  | none => .error .invalidColumnIndex
  | some (SqlCell.Real r) => .ok r
  | some (SqlCell.Integer n) => .ok (f64OfInt n)
  | some _ => .error .invalidColumnType

/-- `row.get::<Vec<u8>>(i)`: rusqlite's `FromSql for Vec<u8>` accepts only a
Blob cell. -/
def rowGetBlob (row : List SqlCell) (i : Nat) : Except DbError (List (Fin 256)) :=
  match row.get? i with
  | none => .error .invalidColumnIndex
  | some (SqlCell.Blob b) => .ok b
  | some _ => .error .invalidColumnType

/-- `parse_json_column`: read the cell as a `String`, then hand it to
`serde_json::from_str` (the external parser `jparse`); either failure
propagates via `?`. -/
def parse_json_column (jparse : String → Except DbError Value)
    (row : List SqlCell) (index : Nat) : Except DbError Value :=
  match rowGetText row index with
  | .error e => .error e
  | .ok jsonString => jparse jsonString

/-- `parse_text_column`: read the cell as a `String` and wrap it with
`json!(text)`, i.e. a string leaf, verbatim. -/
def parse_text_column (row : List SqlCell) (index : Nat) : Except DbError Value :=
  match rowGetText row index with
  | .error e => .error e
  | .ok text => .ok (.str text)

/-- `parse_integer_column`: read the cell as an `i64` and wrap it with
`json!(integer)`, i.e. a numeric leaf. -/
def parse_integer_column (row : List SqlCell) (index : Nat) : Except DbError Value :=
  match rowGetInteger row index with
  | .error e => .error e
  | .ok integer => .ok (.intNum integer)

/-- `json!(f)` for an `f64`: `serde_json`'s `From<f64> for Value` is
`Number::from_f64(f).map_or(Value::Null, Value::Number)`, so a finite float
becomes a numeric leaf and a non-finite one (NaN or an infinity) becomes
`Value::Null`. -/
def jsonOfF64 (r : F64) : Value :=
  if r.isFinite then .realNum r else .null

/-- `parse_real_column`: read the cell as an `f64` and wrap it with
`json!(real)` — a numeric leaf when the float is finite, a null leaf when
it is not (see `jsonOfF64`). -/
def parse_real_column (row : List SqlCell) (index : Nat) : Except DbError Value :=
  match rowGetReal row index with
  | .error e => .error e
  | .ok real => .ok (jsonOfF64 real)

/-- `parse_blob_column`: read the cell as a `Vec<u8>` and wrap it with
`json!(blob)`.  serde serializes a `Vec<u8>` as a JSON array of numbers,
one per byte, in order. -/
def parse_blob_column (row : List SqlCell) (index : Nat) : Except DbError Value :=
  match rowGetBlob row index with
  | .error e => .error e
  | .ok blob => .ok (.arr (blob.map fun byte => .intNum byte.val))

/-- `parse_column`: dispatch on the column's declared type.  The Rust `match`
on `Some("JSON") | Some("TEXT") | Some("INTEGER") | Some("REAL") |
Some("BLOB")` with a catch-all `panic!` is written as the equivalent chain
of string comparisons; the panic message uses
`decl_type().unwrap_or_else(|| "UNKNOWN")`. -/
def parse_column (jparse : String → Except DbError Value)
    (row : List SqlCell) (column : SqlColumn) (index : Nat) : Except DbError Value :=
  match column.declType with
  | none => .error (.panicUnknownType "UNKNOWN")
  | some t =>
    if t = "JSON" then parse_json_column jparse row index
    else if t = "TEXT" then parse_text_column row index
    else if t = "INTEGER" then parse_integer_column row index
    else if t = "REAL" then parse_real_column row index
    else if t = "BLOB" then parse_blob_column row index
    else .error (.panicUnknownType t)

/-- `serde_json::Map::insert`: if the key is already present its value is
replaced in place, otherwise a new entry is added. -/
def mapInsert (m : List (String × Value)) (k : String) (v : Value) :
    List (String × Value) :=
  match m with
  | [] => [(k, v)]
  | (k', v') :: rest =>
    if k' = k then (k', v) :: rest else (k', v') :: mapInsert rest k v

/-- Map lookup on the association list. -/
def mapLookup (m : List (String × Value)) (k : String) : Option Value :=
  match m with
  | [] => none
  | (k', v) :: rest => if k' = k then some v else mapLookup rest k

/-- The keys of the association list, in entry order. -/
def mapKeys (m : List (String × Value)) : List String := m.map Prod.fst

/-- The loop body of `parse_row`: `for i in 0..columns.len()` inserting
`(columns[i].name(), parse_column(row, &columns[i], i)?)` into the map,
with `i` threaded explicitly. -/
def parse_row_go (jparse : String → Except DbError Value) (row : List SqlCell)
    (columns : List SqlColumn) (i : Nat) (acc : List (String × Value)) :
    Except DbError (List (String × Value)) :=
  match columns with
  | [] => .ok acc
  | c :: rest =>
    match parse_column jparse row c i with
    | .error e => .error e
    | .ok v => parse_row_go jparse row rest (i + 1) (mapInsert acc c.name v)

/-- `parse_row`: assemble one row into `json!(column_data)`, a JSON object
mapping column names to decoded leaves. -/
def parse_row (jparse : String → Except DbError Value)
    (columns : List SqlColumn) (row : List SqlCell) : Except DbError Value :=
  match parse_row_go jparse row columns 0 [] with
  | .error e => .error e
  | .ok m => .ok (.obj m)

/-- `parse_rows_dynamic`: drain the row iterator, assembling each row and
pushing the value; the first error aborts the whole call via `?`. -/
def parse_rows_dynamic (jparse : String → Except DbError Value)
    (columns : List SqlColumn) (rows : List (List SqlCell)) :
    Except DbError (List Value) :=
  match rows with
  | [] => .ok []
  | row :: rest =>
    match parse_row jparse columns row with
    | .error e => .error e
    | .ok v =>
      match parse_rows_dynamic jparse columns rest with
      | .error e => .error e
      | .ok vs => .ok (v :: vs)

/-- `parse_rows::<T>`: drain the row iterator, assembling each row and
feeding it through `serde_json::from_value::<T>` (the external deserializer
`deser`); the first error of either step aborts the whole call via `?`. -/
def parse_rows {T : Type} (jparse : String → Except DbError Value)
    (deser : Value → Except DbError T)
    (columns : List SqlColumn) (rows : List (List SqlCell)) :
    Except DbError (List T) :=
  match rows with
  | [] => .ok []
  | row :: rest =>
    match parse_row jparse columns row with
    | .error e => .error e
    | .ok v =>
      match deser v with
      | .error e => .error e
      | .ok t =>
        match parse_rows jparse deser columns rest with
        | .error e => .error e
        | .ok ts => .ok (t :: ts)

/-- The five declared type labels `parse_column` recognizes. -/
def recognizedLabels : List String := ["JSON", "TEXT", "INTEGER", "REAL", "BLOB"]

/-- A column whose declared type label fails to select a decoding strategy:
absent, or not one of the five recognized strings. -/
def unrecognized (c : SqlColumn) : Bool :=
  match c.declType with
  | none => true
  | some t => decide (t ∉ recognizedLabels)

/-- A concrete stand-in for `serde_json::from_str`, used by witnesses: it
parses the one JSON text the witnesses feed it and rejects everything
else. -/
def J0 : String → Except DbError Value :=
  fun s =>
    if s = "[1,2]" then .ok (.arr [.intNum 1, .intNum 2])
    else .error .jsonParseError

/-- A concrete stand-in for `serde_json::from_value::<T>` with `T` a record
holding one integer field `id`, used by witnesses. -/
def deser0 : Value → Except DbError Int :=
  fun v =>
    match v with
    | .obj [("id", .intNum n)] => .ok n
    | _ => .error .deserializeError

/-- The `f64` value +Infinity: the IEEE 754 bit pattern `0x7FF0000000000000`,
not finite.  SQLite stores and returns it in a REAL column (e.g. the
literal `9e999`), so it reaches `parse_real_column`. -/
def posInf : F64 := ⟨0x7FF0000000000000, false⟩

/-- Column metadata whose second column carries the unrecognized declared
type label `FOO`; used by counterexamples and witnesses. -/
def fooColumns : List SqlColumn := [⟨"a", some "INTEGER"⟩, ⟨"b", some "FOO"⟩]

/-- Column metadata in which two columns share the name `id`; used by
counterexamples and witnesses. -/
def dupColumns : List SqlColumn := [⟨"id", some "INTEGER"⟩, ⟨"id", some "INTEGER"⟩]

/-- Modelled from the spec: the Value Tree kinds enumerated in the design
(null, boolean, integer, floating-point, string, byte sequence, ordered
list, ordered mapping of string key to Value Tree). -/
inductive SpecTreeKind where
  | nullKind : SpecTreeKind
  | boolKind : SpecTreeKind
  | integerKind : SpecTreeKind
  | floatKind : SpecTreeKind
  | stringKind : SpecTreeKind
  | byteSequenceKind : SpecTreeKind
  | listKind : SpecTreeKind
  | mappingKind : SpecTreeKind
deriving DecidableEq, Repr

/-- Modelled from the spec: the classification of an engine value into the
Value Tree kinds of the design.  The engine value type (`serde_json::Value`)
has no byte-sequence constructor, so no engine value classifies as
`byteSequenceKind`. -/
def specKindOf (v : Value) : SpecTreeKind :=
  match v with
  | .null => .nullKind
  | .bool _ => .boolKind
  | .intNum _ => .integerKind
  | .realNum _ => .floatKind
  | .str _ => .stringKind
  | .arr _ => .listKind
  | .obj _ => .mappingKind

/-- Spec-side composition for the refinement claim: run the external typed
deserializer over each element of a list of assembled rows, in order,
failing on the first failure. -/
def deserAll {T : Type} (deser : Value → Except DbError T) :
    List Value → Except DbError (List T)
  | [] => .ok []
  | v :: vs =>
    match deser v with
    | .error e => .error e
    | .ok t =>
      match deserAll deser vs with
      | .error e => .error e
      | .ok ts => .ok (t :: ts)

lemma mapLookup_insert_self (m : List (String × Value)) (k : String) (v : Value) :
    mapLookup (mapInsert m k v) k = some v := by
  induction m with
  | nil => simp [mapInsert, mapLookup]
  | cons p rest ih =>
    obtain ⟨k', v'⟩ := p
    by_cases h : k' = k
    · simp [mapInsert, mapLookup, h]
    · simp [mapInsert, mapLookup, h, ih]

lemma mapLookup_insert_ne (m : List (String × Value)) (kIns : String) (v : Value)
    (kLook : String) (h : kIns ≠ kLook) :
    mapLookup (mapInsert m kIns v) kLook = mapLookup m kLook := by
  induction m with
  | nil => simp [mapInsert, mapLookup, h]
  | cons p rest ih =>
    obtain ⟨k', v'⟩ := p
    by_cases hk : k' = kIns
    · subst hk
      simp [mapInsert, mapLookup, h]
    · by_cases hl : k' = kLook
      · simp [mapInsert, mapLookup, hk, hl, Ne.symm h]
      · simp [mapInsert, mapLookup, hk, hl, ih]

lemma mapKeys_insert (m : List (String × Value)) (k : String) (v : Value) :
    mapKeys (mapInsert m k v) =
      if k ∈ mapKeys m then mapKeys m else mapKeys m ++ [k] := by
  induction m with
  | nil => simp [mapInsert, mapKeys]
  | cons p rest ih =>
    obtain ⟨k', v'⟩ := p
    by_cases h : k' = k
    · subst h
      simp [mapInsert, mapKeys]
    · have e1 : mapInsert ((k', v') :: rest) k v = (k', v') :: mapInsert rest k v := by
        simp [mapInsert, h]
      have e2 : ∀ (l : List (String × Value)), mapKeys ((k', v') :: l) = k' :: mapKeys l :=
        fun l => rfl
      rw [e1, e2, e2, ih]
      have hkk : ¬(k = k') := fun hh => h hh.symm
      by_cases hmem : k ∈ mapKeys rest
      · rw [if_pos hmem, if_pos (List.mem_cons_of_mem _ hmem)]
      · rw [if_neg hmem, if_neg (by simp [List.mem_cons, hkk, hmem]), List.cons_append]

lemma length_mapKeys (m : List (String × Value)) : (mapKeys m).length = m.length :=
  List.length_map m Prod.fst

lemma length_mapInsert (m : List (String × Value)) (k : String) (v : Value) :
    (mapInsert m k v).length =
      if k ∈ mapKeys m then m.length else m.length + 1 := by
  rw [← length_mapKeys, mapKeys_insert]
  by_cases h : k ∈ mapKeys m
  · simp [h, length_mapKeys]
  · simp [h, length_mapKeys]

lemma mem_mapKeys_insert (m : List (String × Value)) (k : String) (v : Value)
    (k' : String) :
    k' ∈ mapKeys (mapInsert m k v) ↔ k' ∈ mapKeys m ∨ k' = k := by
  rw [mapKeys_insert]
  by_cases h : k ∈ mapKeys m
  · simp only [h, if_pos]
    constructor
    · exact Or.inl
    · rintro (hh | rfl)
      · exact hh
      · exact h
  · simp [h]

lemma parse_column_JSON (jparse : String → Except DbError Value) (row : List SqlCell)
    (i : Nat) {c : SqlColumn} (h : c.declType = some "JSON") :
    parse_column jparse row c i = parse_json_column jparse row i := by
  unfold parse_column
  rw [h]
  exact rfl

lemma parse_column_TEXT (jparse : String → Except DbError Value) (row : List SqlCell)
    (i : Nat) {c : SqlColumn} (h : c.declType = some "TEXT") :
    parse_column jparse row c i = parse_text_column row i := by
  unfold parse_column
  rw [h]
  exact rfl

lemma parse_column_INTEGER (jparse : String → Except DbError Value) (row : List SqlCell)
    (i : Nat) {c : SqlColumn} (h : c.declType = some "INTEGER") :
    parse_column jparse row c i = parse_integer_column row i := by
  unfold parse_column
  rw [h]
  exact rfl

lemma parse_column_REAL (jparse : String → Except DbError Value) (row : List SqlCell)
    (i : Nat) {c : SqlColumn} (h : c.declType = some "REAL") :
    parse_column jparse row c i = parse_real_column row i := by
  unfold parse_column
  rw [h]
  exact rfl

lemma parse_column_BLOB (jparse : String → Except DbError Value) (row : List SqlCell)
    (i : Nat) {c : SqlColumn} (h : c.declType = some "BLOB") :
    parse_column jparse row c i = parse_blob_column row i := by
  unfold parse_column
  rw [h]
  exact rfl

lemma parse_column_unknown (jparse : String → Except DbError Value) (row : List SqlCell)
    (i : Nat) {c : SqlColumn} {s : String} (h : c.declType = some s)
    (hs : s ∉ recognizedLabels) :
    parse_column jparse row c i = .error (.panicUnknownType s) := by
  simp only [recognizedLabels, List.mem_cons, List.mem_singleton, not_or] at hs
  obtain ⟨h1, h2, h3, h4, h5⟩ := hs
  unfold parse_column
  rw [h]
  simp [h1, h2, h3, h4, h5]

lemma parse_column_absent (jparse : String → Except DbError Value) (row : List SqlCell)
    (i : Nat) {c : SqlColumn} (h : c.declType = none) :
    parse_column jparse row c i = .error (.panicUnknownType "UNKNOWN") := by
  unfold parse_column
  rw [h]

lemma parse_column_unrec_error (jparse : String → Except DbError Value)
    (row : List SqlCell) (i : Nat) (c : SqlColumn) (h : unrecognized c = true) :
    ∃ s, parse_column jparse row c i = .error (.panicUnknownType s) := by
  unfold unrecognized at h
  cases hd : c.declType with
  | none => exact ⟨"UNKNOWN", parse_column_absent jparse row i hd⟩
  | some t =>
    rw [hd] at h
    exact ⟨t, parse_column_unknown jparse row i hd (of_decide_eq_true h)⟩

lemma parse_row_go_append (jparse : String → Except DbError Value) (row : List SqlCell)
    (l1 l2 : List SqlColumn) :
    ∀ (i : Nat) (acc : List (String × Value)),
      parse_row_go jparse row (l1 ++ l2) i acc =
        match parse_row_go jparse row l1 i acc with
        | .error e => .error e
        | .ok m1 => parse_row_go jparse row l2 (i + l1.length) m1 := by
  induction l1 with
  | nil => intro i acc; simp [parse_row_go]
  | cons c rest ih =>
    intro i acc
    cases hcol : parse_column jparse row c i with
    | error e => simp only [List.cons_append, parse_row_go, hcol]
    | ok v =>
      simp only [List.cons_append, parse_row_go, hcol, List.append_eq]
      rw [ih (i + 1) (mapInsert acc c.name v)]
      cases parse_row_go jparse row rest (i + 1) (mapInsert acc c.name v) with
      | error e => rfl
      | ok m1 =>
        have harith : i + 1 + rest.length = i + (c :: rest).length := by
          simp only [List.length_cons]
          omega
        rw [harith]

lemma parse_row_go_lookup_of_notmem (jparse : String → Except DbError Value)
    (row : List SqlCell) (cols : List SqlColumn) (k : String) :
    ∀ (i : Nat) (acc m : List (String × Value)),
      parse_row_go jparse row cols i acc = .ok m →
      (∀ c ∈ cols, c.name ≠ k) → mapLookup m k = mapLookup acc k := by
  induction cols with
  | nil =>
    intro i acc m h _
    injection h with h
    subst h
    rfl
  | cons c rest ih =>
    intro i acc m h hne
    unfold parse_row_go at h
    cases hcol : parse_column jparse row c i with
    | error e =>
      rw [hcol] at h
      exact absurd h (by simp)
    | ok v =>
      rw [hcol] at h
      have h1 := ih (i + 1) (mapInsert acc c.name v) m h
        (fun c' hc' => hne c' (List.mem_cons_of_mem _ hc'))
      rw [h1, mapLookup_insert_ne _ _ _ _ (hne c (List.mem_cons_self _ _))]

lemma parse_row_go_keys (jparse : String → Except DbError Value)
    (row : List SqlCell) (cols : List SqlColumn) :
    ∀ (i : Nat) (acc m : List (String × Value)),
      parse_row_go jparse row cols i acc = .ok m →
      ∀ k, k ∈ mapKeys m ↔ (k ∈ mapKeys acc ∨ k ∈ cols.map SqlColumn.name) := by
  induction cols with
  | nil =>
    intro i acc m h k
    injection h with h
    subst h
    simp
  | cons c rest ih =>
    intro i acc m h k
    unfold parse_row_go at h
    cases hcol : parse_column jparse row c i with
    | error e =>
      rw [hcol] at h
      exact absurd h (by simp)
    | ok v =>
      rw [hcol] at h
      rw [ih _ _ _ h k, mem_mapKeys_insert]
      simp only [List.map_cons, List.mem_cons]
      tauto

lemma parse_row_go_length (jparse : String → Except DbError Value)
    (row : List SqlCell) (cols : List SqlColumn) :
    ∀ (i : Nat) (acc m : List (String × Value)),
      parse_row_go jparse row cols i acc = .ok m →
      (cols.map SqlColumn.name).Nodup →
      (∀ c ∈ cols, c.name ∉ mapKeys acc) →
      m.length = acc.length + cols.length := by
  induction cols with
  | nil =>
    intro i acc m h _ _
    injection h with h
    subst h
    simp
  | cons c rest ih =>
    intro i acc m h hnd hdisj
    unfold parse_row_go at h
    cases hcol : parse_column jparse row c i with
    | error e =>
      rw [hcol] at h
      exact absurd h (by simp)
    | ok v =>
      rw [hcol] at h
      rw [List.map_cons, List.nodup_cons] at hnd
      have hcnotin : c.name ∉ mapKeys acc := hdisj c (List.mem_cons_self _ _)
      have hdisj' : ∀ c' ∈ rest, c'.name ∉ mapKeys (mapInsert acc c.name v) := by
        intro c' hc'
        rw [mem_mapKeys_insert]
        push_neg
        refine ⟨hdisj c' (List.mem_cons_of_mem _ hc'), ?_⟩
        intro heq
        exact hnd.1 (heq ▸ List.mem_map_of_mem SqlColumn.name hc')
      have hlen := ih (i + 1) (mapInsert acc c.name v) m h hnd.2 hdisj'
      rw [hlen, length_mapInsert, if_neg hcnotin, List.length_cons]
      omega

lemma parse_row_go_unrec_error (jparse : String → Except DbError Value)
    (row : List SqlCell) (cols : List SqlColumn) :
    ∀ (i : Nat) (acc : List (String × Value)),
      (∃ c ∈ cols, unrecognized c = true) →
      ∃ e, parse_row_go jparse row cols i acc = .error e := by
  induction cols with
  | nil =>
    intro i acc h
    simp at h
  | cons c rest ih =>
    intro i acc h
    obtain ⟨c', hc', hu⟩ := h
    unfold parse_row_go
    rcases List.mem_cons.mp hc' with rfl | hmem
    · obtain ⟨s, hs⟩ := parse_column_unrec_error jparse row i c' hu
      rw [hs]
      exact ⟨.panicUnknownType s, rfl⟩
    · cases hcol : parse_column jparse row c i with
      | error e => exact ⟨e, rfl⟩
      | ok v =>
        obtain ⟨e, he⟩ := ih (i + 1) (mapInsert acc c.name v) ⟨c', hmem, hu⟩
        exact ⟨e, he⟩

lemma parse_row_unrec_error (jparse : String → Except DbError Value)
    (cols : List SqlColumn) (row : List SqlCell)
    (h : ∃ c ∈ cols, unrecognized c = true) :
    ∃ e, parse_row jparse cols row = .error e := by
  obtain ⟨e, he⟩ := parse_row_go_unrec_error jparse row cols 0 [] h
  refine ⟨e, ?_⟩
  unfold parse_row
  rw [he]

lemma parse_rows_dynamic_ok_length (jparse : String → Except DbError Value)
    (cols : List SqlColumn) :
    ∀ (rows : List (List SqlCell)) (l : List Value),
      parse_rows_dynamic jparse cols rows = .ok l → l.length = rows.length := by
  intro rows
  induction rows with
  | nil =>
    intro l h
    injection h with h
    subst h
    rfl
  | cons row rest ih =>
    intro l h
    unfold parse_rows_dynamic at h
    cases hr : parse_row jparse cols row with
    | error e =>
      rw [hr] at h
      exact absurd h (by simp)
    | ok v =>
      rw [hr] at h
      cases hrec : parse_rows_dynamic jparse cols rest with
      | error e =>
        rw [hrec] at h
        exact absurd h (by simp)
      | ok vs =>
        rw [hrec] at h
        injection h with h
        subst h
        simp [ih vs hrec]

lemma parse_rows_ok_length {T : Type} (jparse : String → Except DbError Value)
    (deser : Value → Except DbError T) (cols : List SqlColumn) :
    ∀ (rows : List (List SqlCell)) (l : List T),
      parse_rows jparse deser cols rows = .ok l → l.length = rows.length := by
  intro rows
  induction rows with
  | nil =>
    intro l h
    injection h with h
    subst h
    rfl
  | cons row rest ih =>
    intro l h
    unfold parse_rows at h
    cases hr : parse_row jparse cols row with
    | error e =>
      rw [hr] at h
      exact absurd h (by simp)
    | ok v =>
      simp only [hr] at h
      cases hd : deser v with
      | error e =>
        simp only [hd] at h
        exact absurd h (by simp)
      | ok t =>
        simp only [hd] at h
        cases hrec : parse_rows jparse deser cols rest with
        | error e =>
          simp only [hrec] at h
          exact absurd h (by simp)
        | ok ts =>
          simp only [hrec] at h
          injection h with h
          subst h
          simp [ih ts hrec]

lemma parse_rows_dynamic_error_of_row_error (jparse : String → Except DbError Value)
    (cols : List SqlColumn) :
    ∀ (rows : List (List SqlCell)),
      (∃ row ∈ rows, ∃ e, parse_row jparse cols row = .error e) →
      ∃ e, parse_rows_dynamic jparse cols rows = .error e := by
  intro rows
  induction rows with
  | nil =>
    intro h
    simp at h
  | cons row rest ih =>
    intro h
    obtain ⟨row', hmem, e', he'⟩ := h
    unfold parse_rows_dynamic
    cases hr : parse_row jparse cols row with
    | error e => exact ⟨e, rfl⟩
    | ok v =>
      have hmem' : row' ∈ rest := by
        rcases List.mem_cons.mp hmem with rfl | h2
        · rw [hr] at he'
          exact absurd he' (by simp)
        · exact h2
      obtain ⟨e, he⟩ := ih ⟨row', hmem', e', he'⟩
      rw [he]
      exact ⟨e, rfl⟩

lemma parse_rows_error_of_row_error {T : Type} (jparse : String → Except DbError Value)
    (deser : Value → Except DbError T) (cols : List SqlColumn) :
    ∀ (rows : List (List SqlCell)),
      (∃ row ∈ rows, ∃ e, parse_row jparse cols row = .error e) →
      ∃ e, parse_rows jparse deser cols rows = .error e := by
  intro rows
  induction rows with
  | nil =>
    intro h
    simp at h
  | cons row rest ih =>
    intro h
    obtain ⟨row', hmem, e', he'⟩ := h
    unfold parse_rows
    cases hr : parse_row jparse cols row with
    | error e => exact ⟨e, rfl⟩
    | ok v =>
      have hmem' : row' ∈ rest := by
        rcases List.mem_cons.mp hmem with rfl | h2
        · rw [hr] at he'
          exact absurd he' (by simp)
        · exact h2
      obtain ⟨e, he⟩ := ih ⟨row', hmem', e', he'⟩
      cases hd : deser v with
      | error e2 =>
        refine ⟨e2, ?_⟩
        simp [hd]
      | ok t =>
        refine ⟨e, ?_⟩
        simp [hd, he]

lemma parse_rows_eq_deserAll {T : Type} (jparse : String → Except DbError Value)
    (deser : Value → Except DbError T) (cols : List SqlColumn) :
    ∀ (rows : List (List SqlCell)) (vs : List Value),
      parse_rows_dynamic jparse cols rows = .ok vs →
      parse_rows jparse deser cols rows = deserAll deser vs := by
  intro rows
  induction rows with
  | nil =>
    intro vs h
    injection h with h
    subst h
    rfl
  | cons row rest ih =>
    intro vs h
    unfold parse_rows_dynamic at h
    cases hr : parse_row jparse cols row with
    | error e =>
      rw [hr] at h
      exact absurd h (by simp)
    | ok v =>
      rw [hr] at h
      cases hrec : parse_rows_dynamic jparse cols rest with
      | error e =>
        rw [hrec] at h
        exact absurd h (by simp)
      | ok vs' =>
        rw [hrec] at h
        injection h with h
        subst h
        simp only [parse_rows, deserAll, hr, ih vs' hrec]

/-- Claim C1, amended: for each of the five recognized declared type labels
(case-sensitive, exact), `parse_column` applies the matching decoding
strategy: `JSON` reads the cell as text and yields whatever the external
JSON parser returns on it; `TEXT` wraps the cell text verbatim as a string
leaf; `INTEGER` reads a 64-bit signed integer and wraps it as a numeric
leaf; `REAL` reads a 64-bit floating value and wraps it as a numeric leaf
when the value is finite, while a non-finite value (an infinity or NaN)
becomes a null leaf (amended: the JSON conversion has no number for it);
`BLOB` reads the raw byte sequence and wraps it as an ordered list of
integer leaves, one per byte (amended from the claimed byte-sequence leaf,
a kind the engine value type does not have).  Any other label, and the
lowercase `json` in particular, is rejected. -/
theorem c1_column_type_classifier (jparse : String → Except DbError Value)
    (row : List SqlCell) (c : SqlColumn) (i : Nat) :
    (c.declType = some "JSON" → ∀ v, parse_column jparse row c i = .ok v →
      ∃ s, rowGetText row i = .ok s ∧ jparse s = .ok v) ∧
    (c.declType = some "TEXT" → ∀ v, parse_column jparse row c i = .ok v →
      ∃ s, rowGetText row i = .ok s ∧ v = .str s) ∧
    (c.declType = some "INTEGER" → ∀ v, parse_column jparse row c i = .ok v →
      ∃ n, rowGetInteger row i = .ok n ∧ v = .intNum n) ∧
    (c.declType = some "REAL" → ∀ v, parse_column jparse row c i = .ok v →
      ∃ r, rowGetReal row i = .ok r ∧
        (r.isFinite = true → v = .realNum r) ∧ (r.isFinite = false → v = .null)) ∧
    (c.declType = some "BLOB" → ∀ v, parse_column jparse row c i = .ok v →
      ∃ b, rowGetBlob row i = .ok b ∧ v = .arr (b.map fun byte => .intNum byte.val)) ∧
    (∀ s, c.declType = some s → s ∉ recognizedLabels →
      parse_column jparse row c i = .error (.panicUnknownType s)) ∧
    (c.declType = none → parse_column jparse row c i = .error (.panicUnknownType "UNKNOWN")) := by
  refine ⟨?_, ?_, ?_, ?_, ?_, ?_, ?_⟩
  · intro hd v hv
    rw [parse_column_JSON jparse row i hd] at hv
    unfold parse_json_column at hv
    cases hs : rowGetText row i with
    | error e =>
      rw [hs] at hv
      exact absurd hv (by simp)
    | ok s =>
      rw [hs] at hv
      exact ⟨s, rfl, hv⟩
  · intro hd v hv
    rw [parse_column_TEXT jparse row i hd] at hv
    unfold parse_text_column at hv
    cases hs : rowGetText row i with
    | error e =>
      rw [hs] at hv
      exact absurd hv (by simp)
    | ok s =>
      rw [hs] at hv
      injection hv with hv
      exact ⟨s, rfl, hv.symm⟩
  · intro hd v hv
    rw [parse_column_INTEGER jparse row i hd] at hv
    unfold parse_integer_column at hv
    cases hs : rowGetInteger row i with
    | error e =>
      rw [hs] at hv
      exact absurd hv (by simp)
    | ok n =>
      rw [hs] at hv
      injection hv with hv
      exact ⟨n, rfl, hv.symm⟩
  · intro hd v hv
    rw [parse_column_REAL jparse row i hd] at hv
    unfold parse_real_column at hv
    cases hs : rowGetReal row i with
    | error e =>
      rw [hs] at hv
      exact absurd hv (by simp)
    | ok r =>
      rw [hs] at hv
      injection hv with hv
      refine ⟨r, rfl, ?_, ?_⟩
      · intro hf
        rw [← hv]
        simp [jsonOfF64, hf]
      · intro hf
        rw [← hv]
        simp [jsonOfF64, hf]
  · intro hd v hv
    rw [parse_column_BLOB jparse row i hd] at hv
    unfold parse_blob_column at hv
    cases hs : rowGetBlob row i with
    | error e =>
      rw [hs] at hv
      exact absurd hv (by simp)
    | ok b =>
      rw [hs] at hv
      injection hv with hv
      exact ⟨b, rfl, hv.symm⟩
  · intro s hd hs
    exact parse_column_unknown jparse row i hd hs
  · intro hd
    exact parse_column_absent jparse row i hd

/-- Claim C1, witness: an `INTEGER` column whose cell holds 42 decodes to
the numeric leaf 42, and a `REAL` column whose cell holds a finite float
decodes to the numeric leaf carrying it. -/
theorem c1_witness :
    (∃ n, rowGetInteger [SqlCell.Integer 42] 0 = .ok n ∧ Value.intNum 42 = Value.intNum n) ∧
    (∃ r, rowGetReal [SqlCell.Real ⟨1, true⟩] 0 = .ok r ∧
      (r.isFinite = true → Value.realNum ⟨1, true⟩ = .realNum r) ∧
      (r.isFinite = false → Value.realNum ⟨1, true⟩ = .null)) :=
  ⟨(c1_column_type_classifier J0 [SqlCell.Integer 42] ⟨"a", some "INTEGER"⟩ 0).2.2.1
    rfl (Value.intNum 42) rfl,
   (c1_column_type_classifier J0 [SqlCell.Real ⟨1, true⟩] ⟨"r", some "REAL"⟩ 0).2.2.2.1
    rfl (Value.realNum ⟨1, true⟩) rfl⟩

/-- Claim C1, counterexample to the claim as stated, in its two failing
clauses.  BLOB: a column with bytes `[0x00, 0xFF]` decodes to an ordered
*list* of integer leaves, not to a leaf of the byte-sequence kind of the
Value Tree — the engine value type has no byte-sequence kind at all.
REAL: a column whose cell holds the 64-bit floating value +Infinity
(storable in SQLite) decodes to a *null* leaf, not a numeric leaf, because
the JSON conversion has no number for a non-finite float. -/
theorem c1_counterexample :
    (parse_column J0 [SqlCell.Blob [0, 255]] ⟨"b", some "BLOB"⟩ 0 =
      .ok (.arr [.intNum 0, .intNum 255]) ∧
     specKindOf (.arr [.intNum 0, .intNum 255]) = SpecTreeKind.listKind ∧
     specKindOf (.arr [.intNum 0, .intNum 255]) ≠ SpecTreeKind.byteSequenceKind) ∧
    (parse_column J0 [SqlCell.Real posInf] ⟨"r", some "REAL"⟩ 0 = .ok .null ∧
     specKindOf Value.null ≠ SpecTreeKind.floatKind) :=
  ⟨⟨rfl, rfl, by decide⟩, ⟨rfl, by decide⟩⟩

/-- Claim C2, amended: if some column has an unrecognized (or absent)
declared type label and the result set has at least one row, then both
entry points fail: no row list is ever returned.  The rejection happens
while the first row is assembled, column by column, so it is not in general
the unknown-type failure that surfaces: a decode error in an earlier
recognized column of the first row preempts it (see the counterexample). -/
theorem c2_unrecognized_fails {T : Type} (jparse : String → Except DbError Value)
    (deser : Value → Except DbError T) (cols : List SqlColumn)
    (rows : List (List SqlCell)) (hrows : rows ≠ [])
    (hcol : ∃ c ∈ cols, unrecognized c = true) :
    (∃ e, parse_rows_dynamic jparse cols rows = .error e) ∧
    (∃ e, parse_rows jparse deser cols rows = .error e) := by
  cases rows with
  | nil => exact absurd rfl hrows
  | cons row rest =>
    obtain ⟨e0, he0⟩ := parse_row_unrec_error jparse cols row hcol
    constructor
    · refine ⟨e0, ?_⟩
      unfold parse_rows_dynamic
      rw [he0]
    · refine ⟨e0, ?_⟩
      unfold parse_rows
      rw [he0]

/-- Claim C2, witness: with columns `(a INTEGER, b FOO)` and one decodable
row, both entry points fail. -/
theorem c2_witness :
    (∃ e, parse_rows_dynamic J0 fooColumns [[SqlCell.Integer 1, SqlCell.Null]] = .error e) ∧
    (∃ e, parse_rows J0 deser0 fooColumns [[SqlCell.Integer 1, SqlCell.Null]] = .error e) :=
  c2_unrecognized_fails J0 deser0 fooColumns [[SqlCell.Integer 1, SqlCell.Null]]
    (by decide) ⟨⟨"b", some "FOO"⟩, by decide, by decide⟩

/-- Claim C2, counterexample to the claim as stated: with columns
`(a INTEGER, b FOO)` and first row `(cell of the wrong type, NULL)`, the
engine reports the decode error of column `a`, not the rejection of the
unrecognized label `FOO` — so the cell of an earlier recognized column is
decoded before the unrecognized label is rejected, and the classifier does
not fail before row data is examined. -/
theorem c2_counterexample :
    (∃ c ∈ fooColumns, unrecognized c = true) ∧
    parse_rows_dynamic J0 fooColumns [[SqlCell.Text "x", SqlCell.Null]] =
      .error .invalidColumnType ∧
    ¬ ∃ s, parse_rows_dynamic J0 fooColumns [[SqlCell.Text "x", SqlCell.Null]] =
      .error (.panicUnknownType s) := by
  refine ⟨⟨⟨"b", some "FOO"⟩, by decide, by decide⟩, rfl, ?_⟩
  rintro ⟨s, hs⟩
  rw [show parse_rows_dynamic J0 fooColumns [[SqlCell.Text "x", SqlCell.Null]] =
    .error .invalidColumnType from rfl] at hs
  injection hs with hs
  exact absurd hs (by simp)

/-- Claim C3: both entry points are fail-fast and all-or-nothing: a
successful call returns exactly one output element per input row (no row
dropped), and as soon as any row fails to assemble, the whole call returns
an error — the signature `Except DbError (List _)` cannot carry a partial
list next to an error. -/
theorem c3_fail_fast {T : Type} (jparse : String → Except DbError Value)
    (deser : Value → Except DbError T) (cols : List SqlColumn)
    (rows : List (List SqlCell)) :
    (∀ l, parse_rows_dynamic jparse cols rows = .ok l → l.length = rows.length) ∧
    (∀ l, parse_rows jparse deser cols rows = .ok l → l.length = rows.length) ∧
    ((∃ row ∈ rows, ∃ e, parse_row jparse cols row = .error e) →
      (∃ e, parse_rows_dynamic jparse cols rows = .error e) ∧
      (∃ e, parse_rows jparse deser cols rows = .error e)) :=
  ⟨fun l => parse_rows_dynamic_ok_length jparse cols rows l,
   fun l => parse_rows_ok_length jparse deser cols rows l,
   fun hex => ⟨parse_rows_dynamic_error_of_row_error jparse cols rows hex,
               parse_rows_error_of_row_error jparse deser cols rows hex⟩⟩

/-- Claim C3, witness: one row whose only cell cannot be decoded as the
declared `INTEGER` makes both entry points fail. -/
theorem c3_witness :
    (∃ e, parse_rows_dynamic J0 [⟨"a", some "INTEGER"⟩] [[SqlCell.Text "x"]] = .error e) ∧
    (∃ e, parse_rows J0 deser0 [⟨"a", some "INTEGER"⟩] [[SqlCell.Text "x"]] = .error e) :=
  (c3_fail_fast J0 deser0 [⟨"a", some "INTEGER"⟩] [[SqlCell.Text "x"]]).2.2
    ⟨[SqlCell.Text "x"], by simp, DbError.invalidColumnType, rfl⟩

/-- Claim C4: last-write-wins on column name collisions.  If `c` is the
last column bearing its name (no column after it in declared order has the
same name), a successfully assembled row maps that name to the decoded
value of `c`, whose index is the number of columns before it. -/
theorem c4_last_write_wins (jparse : String → Except DbError Value)
    (row : List SqlCell) (xs : List SqlColumn) (c : SqlColumn)
    (ys : List SqlColumn) (m : List (String × Value))
    (hys : ∀ c' ∈ ys, c'.name ≠ c.name)
    (hok : parse_row jparse (xs ++ c :: ys) row = .ok (.obj m)) :
    ∃ v, parse_column jparse row c xs.length = .ok v ∧ mapLookup m c.name = some v := by
  unfold parse_row at hok
  cases hgo : parse_row_go jparse row (xs ++ c :: ys) 0 [] with
  | error e =>
    rw [hgo] at hok
    exact absurd hok (by simp)
  | ok m' =>
    rw [hgo] at hok
    injection hok with hok
    injection hok with hok
    subst hok
    rw [parse_row_go_append jparse row xs (c :: ys) 0 []] at hgo
    cases hxs : parse_row_go jparse row xs 0 [] with
    | error e =>
      rw [hxs] at hgo
      exact absurd hgo (by simp)
    | ok m1 =>
      rw [hxs] at hgo
      rw [Nat.zero_add] at hgo
      unfold parse_row_go at hgo
      cases hc : parse_column jparse row c xs.length with
      | error e =>
        rw [hc] at hgo
        exact absurd hgo (by simp)
      | ok v =>
        rw [hc] at hgo
        have hl := parse_row_go_lookup_of_notmem jparse row ys c.name
          (xs.length + 1) (mapInsert m1 c.name v) m' hgo hys
        rw [mapLookup_insert_self] at hl
        exact ⟨v, rfl, hl⟩

/-- Claim C4, witness: two columns both named `id` holding 1 and 2 in
declared order assemble to a row whose entry `id` is the numeric leaf 2. -/
theorem c4_witness :
    ∃ v, parse_column J0 [SqlCell.Integer 1, SqlCell.Integer 2] ⟨"id", some "INTEGER"⟩ 1
        = .ok v ∧
      mapLookup [("id", Value.intNum 2)] "id" = some v :=
  c4_last_write_wins J0 [SqlCell.Integer 1, SqlCell.Integer 2]
    [⟨"id", some "INTEGER"⟩] ⟨"id", some "INTEGER"⟩ [] [("id", Value.intNum 2)]
    (by simp) rfl

/-- Claim C5, amended: when all column names are distinct (as the data
model assumes for a row), a successfully assembled row has exactly one
entry per column.  When two columns share a name the entries merge
(last-write-wins, claim C4), so the entry count drops below the column
count — see the counterexample. -/
theorem c5_leaf_count (jparse : String → Except DbError Value)
    (cols : List SqlColumn) (row : List SqlCell) (m : List (String × Value))
    (hnd : (cols.map SqlColumn.name).Nodup)
    (hok : parse_row jparse cols row = .ok (.obj m)) :
    m.length = cols.length := by
  unfold parse_row at hok
  cases hgo : parse_row_go jparse row cols 0 [] with
  | error e =>
    rw [hgo] at hok
    exact absurd hok (by simp)
  | ok m' =>
    rw [hgo] at hok
    injection hok with hok
    injection hok with hok
    subst hok
    have := parse_row_go_length jparse row cols 0 [] m' hgo hnd
      (by intro c hc; simp [mapKeys])
    simpa using this

/-- Claim C5, witness: two distinctly named columns assemble to a
two-entry row. -/
theorem c5_witness :
    ([("id", Value.intNum 1), ("x", Value.str "hi")] : List (String × Value)).length =
      ([⟨"id", some "INTEGER"⟩, ⟨"x", some "TEXT"⟩] : List SqlColumn).length :=
  c5_leaf_count J0 [⟨"id", some "INTEGER"⟩, ⟨"x", some "TEXT"⟩]
    [SqlCell.Integer 1, SqlCell.Text "hi"]
    [("id", Value.intNum 1), ("x", Value.str "hi")] (by decide) rfl

/-- Claim C5, counterexample to the claim as stated: two columns both named
`id` assemble into a single-entry row, so the number of leaves (1) is less
than the number of columns (2) — the earlier column is silently merged
away. -/
theorem c5_counterexample :
    parse_row J0 dupColumns [SqlCell.Integer 1, SqlCell.Integer 2] =
      .ok (.obj [("id", .intNum 2)]) ∧
    ([("id", Value.intNum 2)] : List (String × Value)).length ≠ dupColumns.length :=
  ⟨rfl, by decide⟩

/-- Claim C6: an empty result set yields the empty output sequence, not an
error, for both entry points, whatever the column metadata says. -/
theorem c6_empty_result_set {T : Type} (jparse : String → Except DbError Value)
    (deser : Value → Except DbError T) (cols : List SqlColumn) :
    parse_rows_dynamic jparse cols [] = .ok [] ∧
    parse_rows jparse deser cols [] = .ok ([] : List T) :=
  ⟨rfl, rfl⟩

/-- Claim C7: row assembly is a pure function of the column metadata and
the raw row, so a result set containing the same raw row twice assembles it
to identical values. -/
theorem c7_deterministic (jparse : String → Except DbError Value)
    (cols : List SqlColumn) (row : List SqlCell) (l : List Value)
    (h : parse_rows_dynamic jparse cols [row, row] = .ok l) :
    ∃ v, l = [v, v] ∧ parse_row jparse cols row = .ok v := by
  cases hr : parse_row jparse cols row with
  | error e =>
    simp only [parse_rows_dynamic, hr] at h
    exact absurd h (by simp)
  | ok v =>
    simp only [parse_rows_dynamic, hr] at h
    injection h with h
    exact ⟨v, h.symm, rfl⟩

/-- Claim C7, witness: the same raw row appearing twice decodes to the same
assembled value both times. -/
theorem c7_witness :
    ∃ v, [Value.obj [("id", Value.intNum 7)], Value.obj [("id", Value.intNum 7)]] = [v, v] ∧
      parse_row J0 [⟨"id", some "INTEGER"⟩] [SqlCell.Integer 7] = .ok v :=
  c7_deterministic J0 [⟨"id", some "INTEGER"⟩] [SqlCell.Integer 7]
    [Value.obj [("id", Value.intNum 7)], Value.obj [("id", Value.intNum 7)]] rfl

/-- Claim C8: whenever the dynamic entry point succeeds, the typed entry
point returns exactly the external deserializer mapped over the dynamic
output in order, failing iff some per-element deserialization fails — the
two entry points share the same row-by-row assembly core. -/
theorem c8_typed_refines_dynamic {T : Type} (jparse : String → Except DbError Value)
    (deser : Value → Except DbError T) (cols : List SqlColumn)
    (rows : List (List SqlCell)) (vs : List Value)
    (h : parse_rows_dynamic jparse cols rows = .ok vs) :
    parse_rows jparse deser cols rows = deserAll deser vs :=
  parse_rows_eq_deserAll jparse deser cols rows vs h

/-- Claim C8, witness: on a one-row result set on which the dynamic entry
point succeeds, the typed entry point equals the deserializer run over its
output. -/
theorem c8_witness :
    parse_rows J0 deser0 [⟨"id", some "INTEGER"⟩] [[SqlCell.Integer 5]] =
      deserAll deser0 [Value.obj [("id", Value.intNum 5)]] :=
  c8_typed_refines_dynamic J0 deser0 [⟨"id", some "INTEGER"⟩] [[SqlCell.Integer 5]]
    [Value.obj [("id", Value.intNum 5)]] rfl

/-- Claim C9: a `BLOB` column cell decodes to a JSON list of integer
leaves, one per byte in the byte sequence order, each in the range 0 to
255 — not to a dedicated byte-string or string leaf. -/
theorem c9_blob_int_list (jparse : String → Except DbError Value)
    (row : List SqlCell) (c : SqlColumn) (i : Nat) (b : List (Fin 256))
    (hc : c.declType = some "BLOB") (hb : rowGetBlob row i = .ok b) :
    parse_column jparse row c i = .ok (.arr (b.map fun byte => .intNum byte.val)) ∧
    specKindOf (.arr (b.map fun byte => .intNum byte.val)) = SpecTreeKind.listKind ∧
    ∀ v ∈ (b.map fun byte => Value.intNum byte.val),
      ∃ k : Nat, v = .intNum k ∧ k < 256 := by
  refine ⟨?_, rfl, ?_⟩
  · rw [parse_column_BLOB jparse row i hc]
    unfold parse_blob_column
    rw [hb]
  · intro v hv
    rw [List.mem_map] at hv
    obtain ⟨byte, _, hbv⟩ := hv
    exact ⟨byte.val, hbv.symm, byte.isLt⟩

/-- Claim C9, witness: the blob `[0x00, 0xFF]` decodes to the list of
integer leaves `[0, 255]`. -/
theorem c9_witness :
    parse_column J0 [SqlCell.Blob [0, 255]] ⟨"data", some "BLOB"⟩ 0 =
      .ok (.arr (([0, 255] : List (Fin 256)).map fun byte => .intNum byte.val)) ∧
    specKindOf (.arr (([0, 255] : List (Fin 256)).map fun byte => Value.intNum byte.val)) =
      SpecTreeKind.listKind ∧
    ∀ v ∈ (([0, 255] : List (Fin 256)).map fun byte => Value.intNum byte.val),
      ∃ k : Nat, v = .intNum k ∧ k < 256 :=
  c9_blob_int_list J0 [SqlCell.Blob [0, 255]] ⟨"data", some "BLOB"⟩ 0 [0, 255] rfl rfl

/-- Claim C10: a successfully assembled row is always a JSON object at the
top level — never null, a scalar, or a list — and its key set is exactly
the set of column names of the metadata. -/
theorem c10_object_with_column_names (jparse : String → Except DbError Value)
    (cols : List SqlColumn) (row : List SqlCell) (v : Value)
    (hok : parse_row jparse cols row = .ok v) :
    ∃ m, v = Value.obj m ∧ ∀ k, k ∈ mapKeys m ↔ k ∈ cols.map SqlColumn.name := by
  unfold parse_row at hok
  cases hgo : parse_row_go jparse row cols 0 [] with
  | error e =>
    rw [hgo] at hok
    exact absurd hok (by simp)
  | ok m =>
    rw [hgo] at hok
    injection hok with hok
    refine ⟨m, hok.symm, fun k => ?_⟩
    rw [parse_row_go_keys jparse row cols 0 [] m hgo k]
    simp [mapKeys]

/-- Claim C10, witness: a one-column row assembles to an object whose key
set is exactly the column name. -/
theorem c10_witness :
    ∃ m, Value.obj [("id", Value.intNum 1)] = Value.obj m ∧
      ∀ k, k ∈ mapKeys m ↔ k ∈ ([⟨"id", some "INTEGER"⟩] : List SqlColumn).map SqlColumn.name :=
  c10_object_with_column_names J0 [⟨"id", some "INTEGER"⟩] [SqlCell.Integer 1]
    (Value.obj [("id", Value.intNum 1)]) rfl

end CrabyBase
